import Mathlib

/-!
Verification development for the fortifarm hub UI: a hand-rolled React-like
rendering runtime (state/memo/effect hooks, virtual-node materialization)
plus an application component dispatching HTTP requests against a hub
service.  Definitions below are shallow embeddings of the JavaScript source
(`src/unnamed/part_000`, duplicated in `src/hub-ui/src/App.jsx`).  Browser
builtins (`JSON.parse`, `JSON.stringify`, `fetch`, `localStorage`) are
modelled as explicit parameters or oracle inputs.
-/

namespace Fortifarm

/-- Universe of JavaScript values as used by the app: JSON values plus the
`undefined` sentinel and opaque function references (identified by a tag). -/
inductive JsValue where
  | undefV
  | nullV
  | bool (b : Bool)
  | num (n : Int)
  | str (s : String)
  | arr (elems : List JsValue)
  | obj (fields : List (String × JsValue))
  | func (id : Nat)

/-- JavaScript truthiness of a value (used by `if (token)`, `body && ...`,
`baseUrl || origin`, and the login guard). -/
def JsValue.truthy : JsValue → Bool
  | .undefV => false
  | .nullV => false
  | .bool b => b
  | .num n => n != 0
  | .str s => s != ""
  | .arr _ => true
  | .obj _ => true
  | .func _ => true

/-- JavaScript string coercion `String(v)`, as used by template literals
(for example the Bearer header and the signed-in toast). Function sources
are modelled opaquely. -/
def JsValue.display : JsValue → String
  | .undefV => "undefined"
  | .nullV => "null"
  | .bool true => "true"
  | .bool false => "false"
  | .num n => toString n
  | .str s => s
  | .obj _ => "[object Object]"
  | .func _ => "function"
  | .arr l => String.intercalate "," (l.attach.map fun v => JsValue.display v.1)
termination_by v => sizeOf v
decreasing_by
  simp_wf
  have h := List.sizeOf_lt_of_mem v.2
  omega

/-- JavaScript property lookup on an object literal / parsed JSON object;
later duplicate keys shadow earlier ones, a missing key is `undefined`
(`none`). -/
def lookupField (kvs : List (String × JsValue)) (k : String) : Option JsValue :=
  (kvs.reverse.find? fun p => p.1 = k).map (·.2)

/-! ## buildUrl (src/unnamed/part_000 lines 195-200)

```js
function buildUrl(baseUrl, path) {
  if (!path.startsWith('/')) {
    return `${baseUrl.replace(/\/$/, '')}/${path}`;
  }
  return `${baseUrl.replace(/\/$/, '')}${path}`;
}
```

Strings are embedded as lists of characters; `replace(/\/$/, '')` removes at
most one trailing slash. -/

/-- Embedding of `baseUrl.replace(/\/$/, '')`: drop one trailing slash when
present. -/
def stripTrailingSlashChars (s : List Char) : List Char :=
  if s.getLast? = some '/' then s.dropLast else s

/-- Embedding of `buildUrl` on character lists. `path.startsWith('/')` is a
first-character test. -/
def buildUrlChars (base path : List Char) : List Char :=
  if path.head? = some '/' then stripTrailingSlashChars base ++ path
  else stripTrailingSlashChars base ++ '/' :: path

/-- The source `buildUrl` on Lean strings, via the character-list core. -/
def buildUrl (baseUrl path : String) : String :=
  String.mk (buildUrlChars baseUrl.data path.data)

/-- Drop every leading slash of a path. -/
def trimSlashesLeft (s : List Char) : List Char := s.dropWhile (· = '/')

/-- Drop every trailing slash of a base URL. -/
def trimSlashesRight (s : List Char) : List Char :=
  (s.reverse.dropWhile (· = '/')).reverse

/-- Formalization of the claim "buildUrl joins base and path with exactly one
slash separator": the result is the base with all trailing slashes removed,
one slash, and the path with all leading slashes removed. -/
def joinsWithOneSeparator (base path : List Char) : Prop :=
  buildUrlChars base path = trimSlashesRight base ++ '/' :: trimSlashesLeft path

instance (base path : List Char) : Decidable (joinsWithOneSeparator base path) :=
  inferInstanceAs (Decidable (_ = _))

/-! ## Hook machinery (src/unnamed/part_000 lines 32-80)

The runtime keeps a flat global `hooks` array addressed by call order.  We
embed slot contents explicitly and each hook as a step function from the
previous slot content to the returned value and updated content. -/

/-- Content of a memo slot: `{ value, deps }` as stored by `useMemo`
(`deps` is the dependency argument, which may be absent). -/
structure MemoRecord (α : Type) where
  value : α
  deps : Option (List α)
deriving DecidableEq

/-- Content of an effect slot: `{ deps, cleanup }` as stored by the effect
flush; the cleanup closure is tracked as a presence flag. -/
structure EffectRecord (α : Type) where
  deps : Option (List α)
  hasCleanup : Bool
deriving DecidableEq

/-- Embedding of `deps.some((dep, i) => dep !== previous.deps[i])`: the
callback receives each index of the new list; an out-of-range index of the
previous list reads as `undefined`, which differs from every entry. -/
def jsSomeDiffers {α : Type} [DecidableEq α] (ds pds : List α) : Bool :=
  (List.range ds.length).any fun i => decide (ds.get? i ≠ pds.get? i)

/-- Evaluation of the shared `changed` expression once `previous` and `deps`
are both present.  Mirrors JavaScript short-circuiting: an empty new list
never indexes the old one, while a non-empty new list read against stored
`deps: undefined` throws a TypeError (`none`). -/
def jsDepsChanged {α : Type} [DecidableEq α] (ds : List α) (prevDeps : Option (List α)) :
    Option Bool :=
  if ds.isEmpty then some true
  else
    match prevDeps with
    | none => none
    | some pds => some (jsSomeDiffers ds pds)

/-- Embedding of `useMemo` as a step on one slot.  Inputs: previous slot
content (`none` = first render of the slot), the value the factory would
produce, and the dependency argument.  Output (when no TypeError): the
returned value, the new slot content, and whether the factory was invoked. -/
def useMemo {α : Type} [DecidableEq α] (prev : Option (MemoRecord α)) (factoryVal : α)
    (deps : Option (List α)) : Option (α × MemoRecord α × Bool) :=
  match prev with
  | none => some (factoryVal, ⟨factoryVal, deps⟩, true)
  | some pr =>
    match deps with
    | none => some (factoryVal, ⟨factoryVal, none⟩, true)
    | some ds =>
      match jsDepsChanged ds pr.deps with
      | none => none
      | some true => some (factoryVal, ⟨factoryVal, some ds⟩, true)
      | some false => some (pr.value, pr, false)

/-- Embedding of `useEffect`'s scheduling decision on one slot: whether the
effect body is pushed onto the pending-effects list (`none` = TypeError as
in `useMemo`). -/
def useEffect {α : Type} [DecidableEq α] (prev : Option (EffectRecord α))
    (deps : Option (List α)) : Option Bool :=
  match prev with
  | none => some true
  | some pr =>
    match deps with
    | none => some true
    | some ds => jsDepsChanged ds pr.deps

/-- Argument accepted by a state setter: a literal value or an updater
function of the previous slot content (`typeof value === 'function'`). -/
inductive SetArg (V : Type) where
  | val (v : V)
  | fn (f : Option V → V)

/-- Embedding of the setter produced by `useState` for slot `idx`:
`hooks[idx] = typeof value === 'function' ? value(hooks[idx]) : value`. -/
def setState {V : Type} (hooks : Nat → Option V) (idx : Nat) (arg : SetArg V) :
    Nat → Option V :=
  let newVal := match arg with
    | .val v => v
    | .fn f => f (hooks idx)
  fun j => if j = idx then some newVal else hooks j

/-- A sequence of setter calls applied in order to the hooks array. -/
def applySets {V : Type} (hooks : Nat → Option V) (ops : List (Nat × SetArg V)) :
    Nat → Option V :=
  ops.foldl (fun h p => setState h p.1 p.2) hooks

/-- Initial value accepted by `useState`: a literal or a lazy initializer. -/
inductive InitArg (V : Type) where
  | val (v : V)
  | thunk (f : Unit → V)

/-- Evaluation of the initializer
(`typeof initialValue === 'function' ? initialValue() : initialValue`). -/
def evalInit {V : Type} : InitArg V → V
  | .val v => v
  | .thunk f => f ()

/-- Embedding of the read performed by `useState` at slot `idx` on a render:
an undefined slot is initialized, otherwise the stored value is returned. -/
def useState {V : Type} (hooks : Nat → Option V) (idx : Nat) (initialValue : InitArg V) :
    V × (Nat → Option V) :=
  match hooks idx with
  | some v => (v, hooks)
  | none =>
    let v := evalInit initialValue
    (v, fun j => if j = idx then some v else hooks j)

/-- Value stored by the last literal setter call targeting slot `i`, if any. -/
def lastSet {V : Type} : List (Nat × V) → Nat → Option V
  | [], _ => none
  | p :: rest, i =>
    match lastSet rest i with
    | some v => some v
    | none => if p.1 = i then some p.2 else none

/-! ## useLocalStorage (src/unnamed/part_000 lines 136-158, duplicated at 475-497)

Browser storage is a partial map from keys to raw strings (`getItem` returns
`null` for a missing key).  `JSON.parse` is passed as a parameter `p`
returning `none` when it would throw, and `JSON.stringify` as a parameter
`stringify`. -/

/-- Embedding of the lazy `useState` initializer of `useLocalStorage`: read
the raw string, JSON-parse it, and fall back to the caller's default on a
missing key or a parse error. -/
def useLocalStorageInit (p : String → Option JsValue) (store : String → Option String)
    (key : String) (initialValue : JsValue) : JsValue :=
  match store key with
  | some raw =>
    match p raw with
    | some v => v
    | none => initialValue
  | none => initialValue

/-- Embedding of the write-back effect of `useLocalStorage` (runs whenever
`[key, stored]` changed): remove the key when the value is `undefined`,
otherwise store the JSON serialization.  Returns the updated store. -/
def useLocalStorageEffect (stringify : JsValue → String) (store : String → Option String)
    (key : String) (stored : JsValue) : String → Option String :=
  match stored with
  | .undefV => fun k => if k = key then none else store k
  | v => fun k => if k = key then some (stringify v) else store k

/-! ## Virtual nodes and createDom (src/unnamed/part_000 lines 82-121)

Component nodes hold an opaque function identifier resolved through an
environment parameter (a strictly positive stand-in for the stored closure);
`createDom` takes fuel to bound component expansion. -/

/-- Virtual node: leaves (`null`, `undefined`, booleans, strings, numbers),
element nodes, fragments, and component nodes. -/
inductive VNode where
  | nullLeaf
  | undefLeaf
  | boolLeaf (b : Bool)
  | textLeaf (s : String)
  | numLeaf (n : Int)
  | elem (tag : String) (props : List (String × JsValue)) (children : List VNode)
  | fragment (children : List VNode)
  | comp (fid : Nat) (props : List (String × JsValue)) (children : List VNode)

/-- Properties accumulated on a real DOM element by `setProp`: attributes,
style assignments, event listeners, and the live `value`/`checked`
properties. -/
structure ElemProps where
  attrs : List (String × String) := []
  styleAssigns : List (String × JsValue) := []
  listeners : List (String × Nat) := []
  valueProp : Option JsValue := none
  checkedProp : Option JsValue := none

/-- Predicate for `typeof value === 'object'` on a truthy value (objects and
arrays; `null` is excluded by the truthiness guard before this test). -/
def JsValue.isObjLike : JsValue → Bool
  | .obj _ => true
  | .arr _ => true
  | _ => false

/-- Predicate for `typeof value === 'function'`. -/
def JsValue.isFunc : JsValue → Bool
  | .func _ => true
  | _ => false

/-- Identifier of a function value (unused branch defaults to 0). -/
def JsValue.funcId : JsValue → Nat
  | .func i => i
  | _ => 0

/-- Entries merged by `Object.assign(dom.style, value)`: object fields, or
index/value pairs for an array. -/
def styleEntries : JsValue → List (String × JsValue)
  | .obj kvs => kvs
  | .arr l => l.enum.map fun q => (toString q.1, q.2)
  | _ => []

/-- Test for `value !== false && value !== undefined` in the attribute
fallback branch. -/
def isFalseOrMissing : JsValue → Bool
  | .bool false => true
  | .undefV => true
  | _ => false

/-- Embedding of `setProp(dom, name, value)` on an element. -/
def setProp (e : ElemProps) (name : String) (value : JsValue) : ElemProps :=
  if name = "key" then e
  else if name = "className" then
    { e with attrs := e.attrs ++ [("class", value.display)] }
  else if name = "style" ∧ value.truthy ∧ value.isObjLike then
    { e with styleAssigns := e.styleAssigns ++ styleEntries value }
  else if name.startsWith "on" ∧ value.isFunc then
    { e with listeners := e.listeners ++ [((name.drop 2).toLower, value.funcId)] }
  else if name = "value" then { e with valueProp := some value }
  else if name = "checked" then { e with checkedProp := some value }
  else if name ≠ "children" ∧ isFalseOrMissing value = false then
    { e with attrs := e.attrs ++ [(name, value.display)] }
  else e

/-- Fold of `Object.entries(vnode.props || {}).forEach(... setProp ...)`. -/
def applyProps (props : List (String × JsValue)) : ElemProps :=
  props.foldl (fun e q => setProp e q.1 q.2) {}

/-- Real DOM tree produced by `createDom`. -/
inductive DomNode where
  | text (s : String)
  | element (tag : String) (props : ElemProps) (children : List DomNode)
  | fragmentNode (children : List DomNode)

/-- Embedding of `createDom`.  The environment resolves a component
identifier to the virtual node its function returns for the given props and
children; the fuel bounds component expansion (and element nesting), and
`none` models a thrown TypeError or fuel exhaustion.  The `boolLeaf true`
case mirrors the source exactly: `true` passes the `null/undefined/false`
guard and the `string/number` guard, `true.type` is `undefined` (neither a
function nor the Fragment symbol), so execution reaches the element branch,
where `document.createElement(undefined)` is followed by
`vnode.children.forEach` on `undefined` — a TypeError. -/
def createDom (env : Nat → List (String × JsValue) → List VNode → VNode) :
    Nat → VNode → Option DomNode
  | _, .nullLeaf => some (.text "")
  | _, .undefLeaf => some (.text "")
  | _, .boolLeaf false => some (.text "")
  | _, .boolLeaf true => none
  | _, .textLeaf s => some (.text s)
  | _, .numLeaf n => some (.text (toString n))
  | 0, .comp _ _ _ => none
  | fuel + 1, .comp fid props children => createDom env fuel (env fid props children)
  | 0, .elem _ _ _ => none
  | fuel + 1, .elem tag props children =>
    (children.mapM fun c => createDom env fuel c).map fun doms =>
      .element tag (applyProps props) doms
  | 0, .fragment _ => none
  | fuel + 1, .fragment children =>
    (children.mapM fun c => createDom env fuel c).map fun doms => .fragmentNode doms

/-! ## Application component (src/unnamed/part_000 lines 202-280)

The component's hook slots are collected into one record; the network is an
oracle input per dispatched request; `JSON.parse` is the parameter `p`. -/

/-- Toast record `{ tone, message }`. -/
structure ToastRec where
  tone : String
  message : String
deriving DecidableEq

/-- Status of a recorded response: the numeric HTTP status, or the string
sentinel `'error'` stored when `fetch` throws. -/
inductive StatusVal where
  | num (n : Nat)
  | errorSentinel
deriving DecidableEq

/-- Data attached to a recorded response: parsed JSON, or the raw text when
the body is not valid JSON (also the error message text in the catch
branch). -/
inductive RespData where
  | json (v : JsValue)
  | text (s : String)

/-- Response record `{ method, path, status, data }`. -/
structure ResponseRec where
  method : String
  path : String
  status : StatusVal
  data : RespData

/-- Value returned by `sendRequest` to its caller: `{ ok, data }`, where in
the catch branch `data` is the Error object itself. -/
inductive SendData where
  | parsed (d : RespData)
  | errObj (message : String)

/-- Return record of `sendRequest`. -/
structure SendResult where
  ok : Bool
  data : SendData

/-- Property access `result.data?.access_token`-style: defined only on a
parsed JSON object, `undefined` (`none`) otherwise. -/
def SendData.getField : SendData → String → Option JsValue
  | .parsed (.json (.obj kvs)), k => lookupField kvs k
  | _, _ => none

/-- Argument record of `sendRequest`: `{ path, method, body }`. -/
structure Request where
  path : String
  method : String
  body : Option JsValue

/-- Oracle outcome of one `fetch`: a response with a status and body text,
or a thrown error carrying a message. -/
inductive FetchOutcome where
  | success (status : Nat) (text : String)
  | failure (message : String)

/-- The outgoing call as configured by `sendRequest`: resolved URL, method,
optional bearer header, and the JSON value serialized into the body (if
attached). -/
structure OutgoingRequest where
  url : String
  method : String
  authToken : Option String
  body : Option JsValue

/-- Hook state of the `App` component.  `token` is a `JsValue` because the
login flow stores whatever `access_token` the server returned; the other
text fields are only ever set from input events, hence plain strings. -/
structure AppState where
  baseUrl : String
  token : JsValue
  username : String
  password : String
  isLoading : Bool
  response : Option ResponseRec
  toast : ToastRec
  customPath : String
  customMethod : String
  customBody : String

/-- The initial hook state of `App` for a page origin, with empty browser
storage (`useLocalStorage` falls back to its defaults). -/
def initialState (origin : String) : AppState :=
  { baseUrl := origin
    token := .str ""
    username := ""
    password := ""
    isLoading := false
    response := none
    toast := ⟨"success", ""⟩
    customPath := "/admin/providers"
    customMethod := "GET"
    customBody := "" }

/-- Embedding of the `resolvedBaseUrl` memo: `baseUrl || origin`. -/
def resolvedBaseUrl (origin : String) (s : AppState) : String :=
  if s.baseUrl ≠ "" then s.baseUrl else origin

/-- The Fetch specification's `Response.ok`: status in the range 200-299. -/
def statusOk (status : Nat) : Bool :=
  200 ≤ status && status < 300

/-- Embedding of `sendRequest` (lines 217-252).  Returns the state after the
dispatch completes, the record returned to the caller, and the configured
outgoing call. -/
def sendRequest (origin : String) (p : String → Option JsValue) (s : AppState)
    (req : Request) (net : FetchOutcome) : AppState × SendResult × OutgoingRequest :=
  let s1 := { s with isLoading := true, toast := ⟨"success", ""⟩ }
  let auth : Option String :=
    if s1.token.truthy then some ("Bearer " ++ s1.token.display) else none
  let url := buildUrl (resolvedBaseUrl origin s1) req.path
  let cfgBody : Option JsValue :=
    match req.body with
    | some b => if b.truthy ∧ req.method ≠ "GET" then some b else none
    | none => none
  let out : OutgoingRequest := ⟨url, req.method, auth, cfgBody⟩
  match net with
  | .success status text =>
    let parsed : RespData :=
      match p text with
      | some j => .json j
      | none => .text text
    let ok := statusOk status
    let s2 := { s1 with
      response := some ⟨req.method, req.path, .num status, parsed⟩
      toast := ⟨if ok then "success" else "error",
                req.method ++ " " ++ req.path ++ " " ++ (if ok then "succeeded" else "failed")⟩
      isLoading := false }
    (s2, ⟨ok, .parsed parsed⟩, out)
  | .failure msg =>
    let s2 := { s1 with
      toast := ⟨"error", msg⟩
      response := some ⟨req.method, req.path, .errorSentinel, .text msg⟩
      isLoading := false }
    (s2, ⟨false, .errObj msg⟩, out)

/-- Embedding of `handleLogin` (lines 254-260). -/
def handleLogin (origin : String) (p : String → Option JsValue) (s : AppState)
    (net : FetchOutcome) : AppState × OutgoingRequest :=
  let body : JsValue := .obj [("username", .str s.username), ("password", .str s.password)]
  let r := sendRequest origin p s ⟨"/authenticate", "POST", some body⟩ net
  let s1 := r.1
  let result := r.2.1
  let tokenField := result.data.getField "access_token"
  let hit : Bool := result.ok && (match tokenField with
    | some t => t.truthy
    | none => false)
  if hit then
    let newTok := match tokenField with
      | some t => t
      | none => .undefV
    let who : String := match result.data.getField "username" with
      | some u => if u.truthy then u.display else s1.username
      | none => s1.username
    ({ s1 with token := newTok, toast := ⟨"success", "Signed in as " ++ who⟩ }, r.2.2)
  else (s1, r.2.2)

/-- Embedding of `handleLogout` (lines 262-266): dispatch `POST /logout`,
then unconditionally clear the token and set a success toast. -/
def handleLogout (origin : String) (p : String → Option JsValue) (s : AppState)
    (net : FetchOutcome) : AppState × OutgoingRequest :=
  let r := sendRequest origin p s ⟨"/logout", "POST", none⟩ net
  ({ r.1 with token := .str "", toast := ⟨"success", "Logged out and token cleared"⟩ }, r.2.2)

/-- Embedding of JavaScript `String.prototype.trim` (used by
`customBody.trim()`): strip leading and trailing whitespace. -/
def jsTrim (s : String) : String :=
  String.mk (((s.data.dropWhile Char.isWhitespace).reverse.dropWhile Char.isWhitespace).reverse)

/-- Embedding of `handleCustom` (lines 268-279): a non-blank body text is
JSON-parsed first, short-circuiting with an error toast (and no dispatch,
second component `none`) when parsing throws; a blank body text dispatches
with `body` undefined. -/
def handleCustom (origin : String) (p : String → Option JsValue) (s : AppState)
    (net : FetchOutcome) : AppState × Option OutgoingRequest :=
  if jsTrim s.customBody ≠ "" then
    match p s.customBody with
    | none => ({ s with toast := ⟨"error", "Request body must be valid JSON"⟩ }, none)
    | some v =>
      let r := sendRequest origin p s ⟨s.customPath, s.customMethod, some v⟩ net
      (r.1, some r.2.2)
  else
    let r := sendRequest origin p s ⟨s.customPath, s.customMethod, none⟩ net
    (r.1, some r.2.2)

/-! ## Shared lemmas -/

/-- Dropping leading slashes of a list whose head is not a slash is the
identity. -/
theorem dropWhile_slash_eq_self (l : List Char) (h : l.head? ≠ some '/') :
    l.dropWhile (· = '/') = l := by
  cases l with
  | nil => rfl
  | cons c t =>
    have hc : c ≠ '/' := by
      intro e
      exact h (by simp [e])
    simp [List.dropWhile, hc]

/-- On a base URL given by its reversed character list, removing one
trailing slash equals removing all of them when there is at most one. -/
theorem strip_eq_trimRight_rev (r : List Char) (h : r.take 2 ≠ ['/', '/']) :
    stripTrailingSlashChars r.reverse = trimSlashesRight r.reverse := by
  unfold stripTrailingSlashChars trimSlashesRight
  rw [List.getLast?_reverse, List.reverse_reverse]
  cases r with
  | nil => simp
  | cons c t =>
    by_cases hc : c = '/'
    · subst hc
      have ht : t.head? ≠ some '/' := by
        intro hh
        cases t with
        | nil => simp at hh
        | cons d u =>
          simp at hh
          subst hh
          simp [List.take] at h
      rw [if_pos (by simp), List.dropLast_reverse]
      simp only [List.tail_cons]
      have hstep : List.dropWhile (· = '/') ('/' :: t) = List.dropWhile (· = '/') t := by
        simp [List.dropWhile]
      rw [hstep, dropWhile_slash_eq_self t ht]
    · rw [if_neg (by simp [hc]), dropWhile_slash_eq_self (c :: t) (by simp [hc])]

/-- Removing one trailing slash equals removing all of them for a base URL
with at most one trailing slash. -/
theorem strip_eq_trimRight (base : List Char) (h : base.reverse.take 2 ≠ ['/', '/']) :
    stripTrailingSlashChars base = trimSlashesRight base := by
  have hb : stripTrailingSlashChars base.reverse.reverse = trimSlashesRight base.reverse.reverse :=
    strip_eq_trimRight_rev base.reverse h
  simpa using hb

/-- Characterization of the embedded dependency comparison: some index of
the new list reads a different value from the old list. -/
theorem jsSomeDiffers_iff {α : Type} [DecidableEq α] (ds pds : List α) :
    jsSomeDiffers ds pds = true ↔ ∃ i, i < ds.length ∧ ds.get? i ≠ pds.get? i := by
  simp [jsSomeDiffers, List.any_eq_true, List.mem_range]

/-- Characterization of a sequence of literal setter calls: each slot ends
at the value last set for it, and a slot no call targets is unchanged. -/
theorem applySets_val_eq {V : Type} (ops : List (Nat × V)) (hooks : Nat → Option V) (i : Nat) :
    applySets hooks (ops.map fun p => (p.1, SetArg.val p.2)) i =
      (match lastSet ops i with | some v => some v | none => hooks i) := by
  induction ops generalizing hooks with
  | nil => rfl
  | cons p rest ih =>
    have hstep :
        applySets hooks ((p.1, SetArg.val p.2) :: rest.map fun q => (q.1, SetArg.val q.2)) i
          = applySets (setState hooks p.1 (SetArg.val p.2))
              (rest.map fun q => (q.1, SetArg.val q.2)) i := rfl
    simp only [List.map_cons]
    rw [hstep, ih]
    cases h : lastSet rest i with
    | some v => simp only [lastSet, h]
    | none =>
      simp only [lastSet, h, setState]
      by_cases hpi : p.1 = i
      · subst hpi
        simp
      · have hip : ¬ i = p.1 := fun e => hpi e.symm
        simp [hpi, hip]

/-! ## Claim theorems -/

/-- C1, counterexample: `buildUrl` does not join every base and path with
exactly one slash separator — a path with two leading slashes keeps both,
`buildUrl("http://x", "//y") = "http://x//y"`. -/
theorem c1_buildUrl_cex :
    buildUrl "http://x" "//y" = "http://x//y"
    ∧ ¬ joinsWithOneSeparator "http://x".data "//y".data := by
  exact ⟨by decide, by decide⟩

/-- C1, amended: for every base URL with at most one trailing slash and
path with at most one leading slash, `buildUrl` joins them with exactly one
slash separator; in particular `buildUrl("http://x/", "/y") = "http://x/y"`
and `buildUrl("http://x", "y") = "http://x/y"`. -/
theorem c1_buildUrl_amended (base path : List Char)
    (h1 : base.reverse.take 2 ≠ ['/', '/']) (h2 : path.take 2 ≠ ['/', '/']) :
    joinsWithOneSeparator base path
    ∧ buildUrl "http://x/" "/y" = "http://x/y"
    ∧ buildUrl "http://x" "y" = "http://x/y" := by
  refine ⟨?_, by decide, by decide⟩
  unfold joinsWithOneSeparator buildUrlChars trimSlashesLeft
  by_cases hp : path.head? = some '/'
  · obtain ⟨t, rfl⟩ : ∃ t, path = '/' :: t := by
      cases path with
      | nil => simp at hp
      | cons c t =>
        simp at hp
        exact ⟨t, by rw [hp]⟩
    have ht : t.head? ≠ some '/' := by
      intro hh
      cases t with
      | nil => simp at hh
      | cons d u =>
        simp at hh
        subst hh
        simp [List.take] at h2
    rw [if_pos hp, strip_eq_trimRight base h1]
    have hstep : List.dropWhile (· = '/') ('/' :: t) = List.dropWhile (· = '/') t := by
      simp [List.dropWhile]
    rw [hstep, dropWhile_slash_eq_self t ht]
  · rw [if_neg hp, strip_eq_trimRight base h1, dropWhile_slash_eq_self path hp]

/-- C1, witness: the amended theorem applied at base `"http://a/"` and path
`"/b"`. -/
theorem c1_buildUrl_witness :
    ("http://a/".data.reverse.take 2 ≠ ['/', '/'])
    ∧ ("/b".data.take 2 ≠ ['/', '/'])
    ∧ joinsWithOneSeparator "http://a/".data "/b".data :=
  ⟨by decide, by decide,
    (c1_buildUrl_amended "http://a/".data "/b".data (by decide) (by decide)).1⟩

/-- C2, counterexample: the logout flow violates the claim — after a
`POST /logout` that returns 401, the stored token is cleared (it differs
from the token before the request) and the final toast is the success-toned
logout message, not error-toned. -/
theorem c2_logout_cex :
    (handleLogout "http://x" (fun _ => none)
        { initialState "http://x" with token := .str "abc" } (.success 401 "denied")).1.token
      = JsValue.str ""
    ∧ JsValue.str "" ≠ JsValue.str "abc"
    ∧ (handleLogout "http://x" (fun _ => none)
        { initialState "http://x" with token := .str "abc" } (.success 401 "denied")).1.toast
      = ⟨"success", "Logged out and token cleared"⟩
    ∧ (handleLogout "http://x" (fun _ => none)
        { initialState "http://x" with token := .str "abc" } (.success 401 "denied")).1.toast.tone
      ≠ "error" := by
  refine ⟨rfl, ?_, rfl, ?_⟩
  · intro h
    injection h with h2
    exact absurd h2 (by decide)
  · decide

/-- C2, amended: for every dispatched request whose response has a non-2xx
status, `sendRequest` records a response with that numeric status and an
error-toned toast and leaves the token unchanged; the logout flow, however,
afterwards clears the token and overwrites the toast with the success-toned
logout message, both regardless of the response status. -/
theorem c2_non2xx_amended (origin : String) (p : String → Option JsValue) (s : AppState)
    (req : Request) (status : Nat) (text : String) (h : statusOk status = false) :
    (sendRequest origin p s req (.success status text)).1.toast.tone = "error"
    ∧ (sendRequest origin p s req (.success status text)).1.response =
        some ⟨req.method, req.path, .num status,
              match p text with | some j => .json j | none => .text text⟩
    ∧ (sendRequest origin p s req (.success status text)).1.token = s.token
    ∧ ∀ net2, (handleLogout origin p s net2).1.token = .str ""
        ∧ (handleLogout origin p s net2).1.toast =
            ⟨"success", "Logged out and token cleared"⟩ := by
  refine ⟨?_, rfl, rfl, ?_⟩
  · simp [sendRequest, h]
  · intro net2
    cases net2 <;> exact ⟨rfl, rfl⟩

/-- C2, witness: the amended theorem applied to a `GET /health` answered
with status 401. -/
theorem c2_witness :
    statusOk 401 = false
    ∧ (sendRequest "http://x" (fun _ => none) (initialState "http://x")
        ⟨"/health", "GET", none⟩ (.success 401 "no")).1.toast.tone = "error" :=
  ⟨by decide,
    (c2_non2xx_amended "http://x" (fun _ => none) (initialState "http://x")
      ⟨"/health", "GET", none⟩ 401 "no" (by decide)).1⟩

/-- C3: a custom call whose body text is non-blank and fails to JSON-parse
issues no network call and sets an error-toned toast; a blank body text
issues a request with no body attached. -/
theorem c3_handleCustom (origin : String) (p : String → Option JsValue) (s : AppState)
    (net : FetchOutcome) :
    (jsTrim s.customBody ≠ "" → p s.customBody = none →
       (handleCustom origin p s net).2 = none
       ∧ (handleCustom origin p s net).1.toast = ⟨"error", "Request body must be valid JSON"⟩)
    ∧ (jsTrim s.customBody = "" →
       ∃ out, (handleCustom origin p s net).2 = some out ∧ out.body = none) := by
  constructor
  · intro h1 h2
    exact ⟨by simp [handleCustom, h1, h2], by simp [handleCustom, h1, h2]⟩
  · intro h1
    refine ⟨(sendRequest origin p s ⟨s.customPath, s.customMethod, none⟩ net).2.2, ?_, ?_⟩
    · simp [handleCustom, h1]
    · cases net <;> rfl

/-- C3, witness: the theorem applied to a custom call with unparseable body
text `"nope"` (first part) and with blank body text (second part). -/
theorem c3_witness :
    ((handleCustom "http://x" (fun _ => none)
        { initialState "http://x" with customBody := "nope" } (.success 200 "")).2 = none)
    ∧ (∃ out, (handleCustom "http://x" (fun _ => none) (initialState "http://x")
        (.success 200 "")).2 = some out ∧ out.body = none) := by
  have h1 := (c3_handleCustom "http://x" (fun _ => none)
      { initialState "http://x" with customBody := "nope" } (.success 200 "")).1
      (by decide) rfl
  have h2 := (c3_handleCustom "http://x" (fun _ => none) (initialState "http://x")
      (.success 200 "")).2 (by decide)
  exact ⟨h1.1, h2⟩

/-- C4: after a prior render of the same slot, the memo factory is
re-invoked (and the effect body is scheduled) exactly when the dependency
list is absent, empty, or some positional entry differs by identity from
the previous render's list; given a non-empty dependency list whose entries
all match the previous ones, the cached value is returned (and no effect is
scheduled). -/
theorem c4_memo_effect_deps {α : Type} [DecidableEq α] (pds ds : List α) (v0 factoryVal : α)
    (hc : Bool) :
    useMemo (some ⟨v0, some pds⟩) factoryVal none = some (factoryVal, ⟨factoryVal, none⟩, true)
    ∧ useMemo (some ⟨v0, some pds⟩) factoryVal (some []) =
        some (factoryVal, ⟨factoryVal, some []⟩, true)
    ∧ ((∃ i, i < ds.length ∧ ds.get? i ≠ pds.get? i) →
        useMemo (some ⟨v0, some pds⟩) factoryVal (some ds) =
          some (factoryVal, ⟨factoryVal, some ds⟩, true))
    ∧ (ds ≠ [] → (∀ i, i < ds.length → ds.get? i = pds.get? i) →
        useMemo (some ⟨v0, some pds⟩) factoryVal (some ds) = some (v0, ⟨v0, some pds⟩, false))
    ∧ useEffect (some ⟨some pds, hc⟩) none = some true
    ∧ useEffect (some ⟨some pds, hc⟩) (some []) = some true
    ∧ ((∃ i, i < ds.length ∧ ds.get? i ≠ pds.get? i) →
        useEffect (some ⟨some pds, hc⟩) (some ds) = some true)
    ∧ (ds ≠ [] → (∀ i, i < ds.length → ds.get? i = pds.get? i) →
        useEffect (some ⟨some pds, hc⟩) (some ds) = some false) := by
  have hdiff : ∀ (h : ∃ i, i < ds.length ∧ ds.get? i ≠ pds.get? i),
      jsDepsChanged ds (some pds) = some true := by
    intro h
    obtain ⟨i, hi, hne⟩ := h
    have hne2 : ds ≠ [] := by
      intro e
      subst e
      simp at hi
    unfold jsDepsChanged
    rw [if_neg (by simpa using hne2)]
    simp only [Option.some.injEq]
    exact (jsSomeDiffers_iff ds pds).2 ⟨i, hi, hne⟩
  have hsame : ds ≠ [] → (∀ i, i < ds.length → ds.get? i = pds.get? i) →
      jsDepsChanged ds (some pds) = some false := by
    intro hne hall
    unfold jsDepsChanged
    rw [if_neg (by simpa using hne)]
    simp only [Option.some.injEq]
    rw [← Bool.not_eq_true]
    intro hcon
    obtain ⟨i, hi, hne2⟩ := (jsSomeDiffers_iff ds pds).1 hcon
    exact hne2 (hall i hi)
  refine ⟨rfl, by simp [useMemo, jsDepsChanged], ?_, ?_, rfl,
    by simp [useEffect, jsDepsChanged], ?_, ?_⟩
  · intro h
    simp only [useMemo, hdiff h]
  · intro hne hall
    simp only [useMemo, hsame hne hall]
  · intro h
    simp only [useEffect, hdiff h]
  · intro hne hall
    simp only [useEffect, hsame hne hall]

/-- C4, witness: the theorem applied at previous deps `[1, 2]` with new
deps `[1, 3]` (one entry differs, recompute/schedule) and `[1, 2]`
(unchanged, cached value / no effect). -/
theorem c4_witness :
    useMemo (some ⟨5, some [1, 2]⟩) 7 (some [1, 3]) = some (7, ⟨7, some [1, 3]⟩, true)
    ∧ useMemo (some ⟨5, some [1, 2]⟩) 7 (some [1, 2]) = some (5, ⟨5, some [1, 2]⟩, false)
    ∧ useEffect (some ⟨some [1, 2], false⟩) (some [1, 3]) = some true
    ∧ useEffect (some ⟨some [1, 2], false⟩) (some [1, 2]) = some false := by
  have ha := c4_memo_effect_deps [1, 2] [1, 3] 5 7 false
  have hb := c4_memo_effect_deps [1, 2] [1, 2] 5 7 false
  exact ⟨ha.2.2.1 ⟨1, by decide, by decide⟩,
         hb.2.2.2.1 (by decide) (by decide),
         ha.2.2.2.2.2.2.1 ⟨1, by decide, by decide⟩,
         hb.2.2.2.2.2.2.2 (by decide) (by decide)⟩

/-- C5: for any sequence of literal state-setter calls (identical hook
order and count across renders means one fixed slot index per `useState`
call site), each slot holds the value last set for it — and is read back as
such by the next render's `useState` — while a slot no call targets keeps
its previous value. -/
theorem c5_state_slots {V : Type} (hooks : Nat → Option V) (ops : List (Nat × V)) (i : Nat)
    (init : InitArg V) :
    applySets hooks (ops.map fun p => (p.1, SetArg.val p.2)) i =
      (match lastSet ops i with | some v => some v | none => hooks i)
    ∧ (useState (applySets hooks (ops.map fun p => (p.1, SetArg.val p.2))) i init).1 =
      (match lastSet ops i with
       | some v => v
       | none => match hooks i with | some w => w | none => evalInit init) := by
  refine ⟨applySets_val_eq ops hooks i, ?_⟩
  unfold useState
  rw [applySets_val_eq ops hooks i]
  cases h : lastSet ops i with
  | some v => rfl
  | none =>
    cases hh : hooks i with
    | some w => rfl
    | none => rfl

/-- C6: when the network call throws, `sendRequest` catches the exception,
sets an error-toned toast carrying the exception's message, and records a
response with the `'error'` status sentinel; and for every outcome the
loading flag is false once the dispatch completes. -/
theorem c6_sendRequest_error (origin : String) (p : String → Option JsValue) (s : AppState)
    (req : Request) (msg : String) :
    ((sendRequest origin p s req (.failure msg)).1.toast = ⟨"error", msg⟩
      ∧ (sendRequest origin p s req (.failure msg)).1.response =
          some ⟨req.method, req.path, .errorSentinel, .text msg⟩)
    ∧ ∀ net, (sendRequest origin p s req net).1.isLoading = false := by
  refine ⟨⟨rfl, rfl⟩, ?_⟩
  intro net
  cases net <;> rfl

/-- C7: a login whose `POST /authenticate` returns an ok response with body
`{access_token: "abc", username: "u"}` stores token `"abc"` and sets a
success-toned toast whose message contains `"u"`. -/
theorem c7_handleLogin (origin : String) (p : String → Option JsValue) (s : AppState)
    (text : String)
    (h : p text = some (.obj [("access_token", .str "abc"), ("username", .str "u")])) :
    (handleLogin origin p s (.success 200 text)).1.token = .str "abc"
    ∧ (handleLogin origin p s (.success 200 text)).1.toast.tone = "success"
    ∧ "u".data <:+: (handleLogin origin p s (.success 200 text)).1.toast.message.data := by
  have hmsg : (handleLogin origin p s (.success 200 text)).1.toast.message = "Signed in as u" := by
    simp [handleLogin, sendRequest, h, SendData.getField, lookupField, statusOk,
      JsValue.truthy, JsValue.display]
  refine ⟨?_, ?_, ?_⟩
  · simp [handleLogin, sendRequest, h, SendData.getField, lookupField, statusOk, JsValue.truthy]
  · simp [handleLogin, sendRequest, h, SendData.getField, lookupField, statusOk, JsValue.truthy]
  · rw [hmsg]
    decide

/-- C7, witness: the theorem applied with a parse oracle mapping the body
text `"body"` to the authentication object. -/
theorem c7_witness :
    (handleLogin "http://x"
      (fun t => if t = "body" then
        some (JsValue.obj [("access_token", .str "abc"), ("username", .str "u")]) else none)
      (initialState "http://x") (.success 200 "body")).1.token = .str "abc" := by
  have h := c7_handleLogin "http://x"
    (fun t => if t = "body" then
      some (JsValue.obj [("access_token", .str "abc"), ("username", .str "u")]) else none)
    (initialState "http://x") "body" (by simp)
  exact h.1

/-- C8: the persistence hook's first read returns the JSON-parse of the
stored string when present and parseable, and the caller's default on a
missing key or parse error; the write-back effect stores the JSON
serialization of the new value under the key, except that the `undefined`
sentinel removes the key. -/
theorem c8_useLocalStorage :
    (∀ (p : String → Option JsValue) (store : String → Option String) (key : String)
        (init : JsValue) (raw : String) (v : JsValue),
        store key = some raw → p raw = some v → useLocalStorageInit p store key init = v)
    ∧ (∀ (p : String → Option JsValue) (store : String → Option String) (key : String)
        (init : JsValue), store key = none → useLocalStorageInit p store key init = init)
    ∧ (∀ (p : String → Option JsValue) (store : String → Option String) (key : String)
        (init : JsValue) (raw : String),
        store key = some raw → p raw = none → useLocalStorageInit p store key init = init)
    ∧ (∀ (stringify : JsValue → String) (store : String → Option String) (key : String)
        (v : JsValue), v ≠ JsValue.undefV →
        useLocalStorageEffect stringify store key v key = some (stringify v))
    ∧ (∀ (stringify : JsValue → String) (store : String → Option String) (key : String),
        useLocalStorageEffect stringify store key .undefV key = none) := by
  refine ⟨?_, ?_, ?_, ?_, ?_⟩
  · intro p store key init raw v h1 h2
    simp [useLocalStorageInit, h1, h2]
  · intro p store key init h1
    simp [useLocalStorageInit, h1]
  · intro p store key init raw h1 h2
    simp [useLocalStorageInit, h1, h2]
  · intro stringify store key v hv
    cases v
    case undefV => exact absurd rfl hv
    all_goals simp [useLocalStorageEffect]
  · intro stringify store key
    simp [useLocalStorageEffect]

/-- C8, witness: the theorem applied with concrete stores and a concrete
parse/stringify oracle, covering all five cases. -/
theorem c8_witness :
    useLocalStorageInit (fun r => if r = "tok" then some (.str "t") else none)
        (fun k => if k = "hub.token" then some "tok" else none) "hub.token" (.str "") = .str "t"
    ∧ useLocalStorageInit (fun _ => none) (fun _ => none) "hub.token" (.str "") = .str ""
    ∧ useLocalStorageInit (fun _ => none) (fun k => if k = "hub.token" then some "bad" else none)
        "hub.token" (.str "") = .str ""
    ∧ useLocalStorageEffect (fun _ => "S") (fun _ => none) "k" (.str "v") "k" = some "S"
    ∧ useLocalStorageEffect (fun _ => "S") (fun _ => none) "k" .undefV "k" = none := by
  refine ⟨?_, ?_, ?_, ?_, ?_⟩
  · exact c8_useLocalStorage.1 _ _ _ _ "tok" (.str "t") (by simp) (by simp)
  · exact c8_useLocalStorage.2.1 _ _ _ _ rfl
  · exact c8_useLocalStorage.2.2.1 _ _ _ _ "bad" (by simp) rfl
  · exact c8_useLocalStorage.2.2.2.1 _ _ _ _ (fun h => JsValue.noConfusion h)
  · exact c8_useLocalStorage.2.2.2.2 _ _ _

/-- C9, counterexample: the boolean leaf `true` is not caught by the leaf
guards of `createDom` — it falls through to the element-construction branch
(where reading `children` of a primitive throws), so it does not produce an
empty text node as the claim states for boolean leaves. -/
theorem c9_createDom_cex :
    createDom (fun _ _ _ => VNode.nullLeaf) 1 (.boolLeaf true) = none
    ∧ createDom (fun _ _ _ => VNode.nullLeaf) 1 (.boolLeaf true) ≠ some (.text "") := by
  exact ⟨rfl, by simp [createDom]⟩

/-- C9, amended: `createDom` is total on the text, number, null, undefined
and boolean-`false` leaves and returns a text node (the content for text
and number leaves, empty for null/undefined/false); the boolean `true`
leaf is not handled by the leaf guards and reaches the element-construction
branch, which fails. -/
theorem c9_createDom_amended (env : Nat → List (String × JsValue) → List VNode → VNode)
    (fuel : Nat) (s : String) (n : Int) :
    createDom env fuel .nullLeaf = some (.text "")
    ∧ createDom env fuel .undefLeaf = some (.text "")
    ∧ createDom env fuel (.boolLeaf false) = some (.text "")
    ∧ createDom env fuel (.textLeaf s) = some (.text s)
    ∧ createDom env fuel (.numLeaf n) = some (.text (toString n))
    ∧ createDom env fuel (.boolLeaf true) = none := by
  cases fuel <;> exact ⟨rfl, rfl, rfl, rfl, rfl, rfl⟩

/-- C10: a request whose body argument is a falsy JSON value (0, false,
null, the empty string) gets no body attached to the outgoing call, even
for non-GET methods, because attachment is guarded by `body && method !==
'GET'` — JavaScript truthiness of the parsed body. -/
theorem c10_falsy_body (origin : String) (p : String → Option JsValue) (s : AppState)
    (path method : String) (v : JsValue) (net : FetchOutcome) (h : v.truthy = false) :
    (sendRequest origin p s ⟨path, method, some v⟩ net).2.2.body = none := by
  cases net <;> simp [sendRequest, h]

/-- C10, witness: the theorem applied to a `POST` carrying body `0`. -/
theorem c10_witness :
    JsValue.truthy (.num 0) = false
    ∧ (sendRequest "http://x" (fun _ => none) (initialState "http://x")
        ⟨"/p", "POST", some (.num 0)⟩ (.success 200 "")).2.2.body = none :=
  ⟨rfl, c10_falsy_body "http://x" (fun _ => none) (initialState "http://x") "/p" "POST"
      (.num 0) (.success 200 "") rfl⟩

end Fortifarm
